import Mathlib

/-!
Verification of the HTTP boundary layer of `ent` (src/ent.go), a
content-addressable object store. The boundary layer routes requests,
resolves buckets through a `Provider`, streams objects through a
`FileSystem`, and marshals responses to JSON. This file shallowly embeds
the boundary-layer code: pure helpers become Lean functions, the handlers
become functions from abstract collaborator results to an event trace and
a response value, and Go byte slices become `List (Fin 256)`.
-/

namespace Ent

/-- A byte as stored in a Go `[]byte`. -/
abbrev Byte := Fin 256

/-- A Go byte slice (`[]byte`) as a list of bytes; `Option Bytes` is used
where Go distinguishes a nil slice from an empty one. -/
abbrev Bytes := List Byte

/-- Modelled from the spec: the shared error taxonomy. `ErrBucketNotFound`
and `ErrFileNotFound` are sentinel error values defined in repository files
outside src/ (Provider and FileSystem); every other error value carries the
message of its `Error()` string. -/
inductive Err where
  | bucketNotFound
  | fileNotFound
  | other (msg : String)
deriving DecidableEq

/-- Modelled from the spec: the `Error()` string of each sentinel error;
only its presence in the response body matters, never its exact text. -/
def Err.message : Err → String
  | .bucketNotFound => "bucket not found"
  | .fileNotFound => "file not found"
  | .other msg => msg

/-- `http.StatusNotFound`. -/
def statusNotFound : Nat := 404

/-- `http.StatusInternalServerError`. -/
def statusInternalServerError : Nat := 500

/-- `http.StatusCreated`. -/
def statusCreated : Nat := 201

/-- `http.StatusText` from Go's net/http, restricted to the codes the
boundary layer emits. -/
def statusText (code : Nat) : String :=
  if code = 404 then "Not Found"
  else if code = 500 then "Internal Server Error"
  else if code = 201 then "Created"
  else ""

/-- `ResponseError` (src/ent.go:194-198): body sent for any error
condition in the http path. -/
structure ResponseError where
  code : Nat
  error : String
  description : String
deriving DecidableEq

/-- The status code chosen by `respondError` (src/ent.go:200-206): the
code starts at `http.StatusInternalServerError` and the switch lowers it
to `http.StatusNotFound` for the two sentinel errors. -/
def respondErrorCode (err : Err) : Nat :=
  match err with
  | .bucketNotFound => statusNotFound
  | .fileNotFound => statusNotFound
  | .other _ => statusInternalServerError

/-- `respondError` (src/ent.go:200-215): the status code written and the
JSON body encoded. The `method` and `url` parameters are accepted as in
the source but unused by its body. -/
def respondError (_method _url : String) (err : Err) : Nat × ResponseError :=
  let code := respondErrorCode err
  (code, { code := code, error := err.message, description := statusText code })

/-! ## Hex encoding (Go `encoding/hex`) -/

/-- The digit table `hextable = "0123456789abcdef"` of Go's encoding/hex. -/
def hextable : List Char :=
  "0123456789abcdef".data

/-- `hex.Encode` writes `hextable[b>>4]` then `hextable[b&0x0f]` for each
byte `b`; both indices are below 16, so the default is never used. -/
def hexEncodeBytes : Bytes → List Char
  | [] => []
  | b :: bs => hextable.getD (b.val / 16) '0' :: hextable.getD (b.val % 16) '0' :: hexEncodeBytes bs

/-- `hex.EncodeToString` (Go encoding/hex). -/
def hexEncodeToString (bs : Bytes) : String :=
  String.mk (hexEncodeBytes bs)

/-- `fromHexChar` (Go encoding/hex): value of one hex digit, `none` for a
character outside `[0-9a-fA-F]`. -/
def fromHexChar (c : Char) : Option Nat :=
  if '0' ≤ c ∧ c ≤ '9' then some (c.toNat - '0'.toNat)
  else if 'a' ≤ c ∧ c ≤ 'f' then some (c.toNat - 'a'.toNat + 10)
  else if 'A' ≤ c ∧ c ≤ 'F' then some (c.toNat - 'A'.toNat + 10)
  else none

/-- `hex.Decode` over a character list: consumes two digits per output
byte, fails on an invalid digit or on odd length (Go's `ErrLength`). -/
def hexDecodeChars : List Char → Except String Bytes
  | [] => .ok []
  | [_] => .error "encoding/hex: odd length hex string"
  | a :: b :: rest =>
    match fromHexChar a, fromHexChar b with
    | some hi, some lo =>
      match hexDecodeChars rest with
      | .ok bs => .ok (⟨(hi * 16 + lo) % 256, Nat.mod_lt _ (by norm_num)⟩ :: bs)
      | .error e => .error e
    | _, _ => .error "encoding/hex: invalid byte"

/-- `hex.DecodeString` (Go encoding/hex). -/
def hexDecodeString (s : String) : Except String Bytes :=
  hexDecodeChars s.data

/-! ## Data model shared with the rest of the repository -/

/-- Modelled from the spec: `Bucket` is defined in a repository file
outside src/; per §3 it is a named namespace with policy data, of which
only the `Name` attribute is observed by the boundary layer
(src/ent.go:277 uses `b.Name` for metric labels). -/
structure Bucket where
  Name : String
deriving DecidableEq

/-- `ResponseFile` (src/ent.go:218-222): metadata of a file, with the
SHA1 digest carried internally as a raw byte slice (`Option Bytes`
distinguishes a nil Go slice from an empty one; the Bucket pointer may
be nil likewise). -/
structure ResponseFile where
  Bucket : Option Bucket
  Key : String
  SHA1 : Option Bytes
deriving DecidableEq

/-- `responseFileWrapper` (src/ent.go:255-259): the JSON document shape of
a `ResponseFile`, with the digest as a hex string. Go's `encoding/json`
round-trips this plain struct between its value and its JSON text, so the
wrapper value stands for the JSON document itself. -/
structure responseFileWrapper where
  Bucket : Option Bucket
  Key : String
  SHA1 : String
deriving DecidableEq

/-- `ResponseFile.MarshalJSON` (src/ent.go:226-232): marshals the wrapper
with `SHA1: hex.EncodeToString(r.SHA1)`; Go's `hex.EncodeToString` treats
a nil slice like an empty one. -/
def ResponseFile.marshalJSON (r : ResponseFile) : responseFileWrapper :=
  { Bucket := r.Bucket, Key := r.Key, SHA1 := hexEncodeToString (r.SHA1.getD []) }

/-- `ResponseFile.UnmarshalJSON` (src/ent.go:236-253) applied to receiver
`r`. Its first step, `json.Unmarshal(d, &w)`, is external library code;
its result — a wrapper value or a parse error — is the `d` argument here.
The decoded hash is a non-nil slice, so `SHA1 := some h`. Returns the
updated receiver and the returned error (`none` on success). -/
def ResponseFile.unmarshalJSON (r : ResponseFile) (d : Except String responseFileWrapper) :
    ResponseFile × Option String :=
  match d with
  | .error e => (r, some e)
  | .ok w =>
    match hexDecodeString w.SHA1 with
    | .error e => (r, some e)
    | .ok h => ({ Bucket := w.Bucket, Key := w.Key, SHA1 := some h }, none)

/-! ## The route pattern -/

/-- A regex character range `lo-hi`, inclusive on both ends. -/
def inRange (lo hi c : Char) : Bool :=
  lo ≤ c && c ≤ hi

/-- The character class of the `key` capture in
`fileRoute = /{bucket}/{key:[a-zA-Z0-9\-_\.~\+\/]+}` (src/ent.go:24):
ranges `a-z`, `A-Z`, `0-9` and the escaped literals `- _ . ~ + /`. -/
def isKeyChar (c : Char) : Bool :=
  inRange 'a' 'z' c || inRange 'A' 'Z' c || inRange '0' '9' c ||
    c == '-' || c == '_' || c == '.' || c == '~' || c == '+' || c == '/'

/-- Modelled from the spec: the alphabet `[a-zA-Z0-9\-_.~+/]` the spec
(§6) says the boundary accepts for keys, written from the spec's words to
be compared against `isKeyChar` from the source. -/
def specKeyAlphabet (c : Char) : Bool :=
  inRange 'a' 'z' c || inRange 'A' 'Z' c || inRange '0' '9' c ||
    c == '-' || c == '_' || c == '.' || c == '~' || c == '+' || c == '/'

/-- The fragment of regular expressions the route pattern uses: a
character class and one-or-more repetition. -/
inductive Regex where
  | charClass (p : Char → Bool)
  | plus (r : Regex)

/-- Standard regular-expression matching semantics for the fragment:
a class matches exactly one character satisfying it, `r+` matches one
match of `r` or a match of `r` followed by a match of `r+`. -/
inductive Regex.Matches : Regex → List Char → Prop where
  | charClass {p : Char → Bool} {c : Char} (h : p c = true) :
      Regex.Matches (.charClass p) [c]
  | plusOne {r : Regex} {l : List Char} (h : Regex.Matches r l) :
      Regex.Matches (.plus r) l
  | plusMore {r : Regex} {l₁ l₂ : List Char} (h₁ : Regex.Matches r l₁)
      (h₂ : Regex.Matches (.plus r) l₂) : Regex.Matches (.plus r) (l₁ ++ l₂)

/-- The `key` capture pattern of `fileRoute` (src/ent.go:24):
`[a-zA-Z0-9\-_\.~\+\/]+`. -/
def fileRouteKeyRegex : Regex := .plus (.charClass isKeyChar)

/-! ## ReaderDelegator -/

/-- An abstract underlying `io.Reader`: from its state and the capacity of
the buffer passed to `Read`, produce the next state, the count of bytes
delivered, and the error value returned (`none` for Go's nil error). -/
structure Reader (σ : Type) where
  read : σ → Nat → σ × Nat × Option Err

/-- `ReaderDelegator` (src/ent.go:290-293): wraps an underlying reader
(its current state) and accumulates `BytesRead`. -/
structure ReaderDelegator (σ : Type) where
  state : σ
  BytesRead : Nat

/-- `NewReaderDelegator` (src/ent.go:301-305): `BytesRead` starts at the
zero value of Go `int`. -/
def NewReaderDelegator (s : σ) : ReaderDelegator σ :=
  { state := s, BytesRead := 0 }

/-- `ReaderDelegator.Read` (src/ent.go:295-299): delegates to the
underlying reader's `Read`, adds the returned count to `BytesRead`, and
returns that count and error unchanged. -/
def ReaderDelegator.Read (u : Reader σ) (rd : ReaderDelegator σ) (cap : Nat) :
    ReaderDelegator σ × Nat × Option Err :=
  let (s, n, err) := u.read rd.state cap
  ({ state := s, BytesRead := rd.BytesRead + n }, n, err)

/-- A sequence of `Read` calls on a `ReaderDelegator`, one per buffer
capacity in `caps`; returns the final delegator and each call's
`(count, error)` result in order. -/
def runReads (u : Reader σ) : ReaderDelegator σ → List Nat → ReaderDelegator σ × List (Nat × Option Err)
  | rd, [] => (rd, [])
  | rd, cap :: caps =>
    let (rd', n, err) := rd.Read u cap
    let (rdF, outs) := runReads u rd' caps
    (rdF, (n, err) :: outs)

/-- The same sequence of `Read` calls made directly on the underlying
reader, with no delegator in between. -/
def runReader (u : Reader σ) : σ → List Nat → σ × List (Nat × Option Err)
  | s, [] => (s, [])
  | s, cap :: caps =>
    let (s', n, err) := u.read s cap
    let (sF, outs) := runReader u s' caps
    (sF, (n, err) :: outs)

/-! ## Collaborators and handlers -/

/-- Modelled from the spec: the read handle returned by the FileSystem's
`Open` (defined outside src/), which per §4.2 supports random-access reads
and exposes a last-modified timestamp. Only the timestamp (nanoseconds) is
observed by the boundary layer. -/
structure File where
  modTime : Int
deriving DecidableEq

/-- Modelled from the spec: the handle returned by the FileSystem's
`Create` (defined outside src/); the boundary layer only calls `Hash()`
on it (src/ent.go:89), which returns a digest or an error. -/
structure CreatedFile where
  Hash : Except Err Bytes

/-- A sequence of buckets, as returned by the Provider's enumeration. -/
abbrev BucketList := List Bucket

/-- Modelled from the spec: the `Provider` capability consumed by the
handlers — bucket resolution (`Get`) and enumeration (`List`), each of
which may fail. -/
structure Provider where
  Get : String → Except Err Bucket
  List : Unit → Except Err BucketList

/-- Modelled from the spec: the `FileSystem` capability consumed by the
handlers — `Create` streams the request body into the store under
(bucket, key) and `Open` opens a committed object for reading. -/
structure FileSystem where
  Create : Bucket → String → Bytes → Except Err CreatedFile
  Open : Bucket → String → Except Err File

/-- An inbound HTTP request as the handlers observe it: the `:bucket` and
`:key` route variables, the body bytes, and the method and URL strings
passed to `respondError`. -/
structure Request where
  bucket : String
  key : String
  body : Bytes
  Method : String
  URL : String

/-- One observable call made by a handler to a collaborator; the trace of
these events is what the handler body executes, in order. -/
inductive Event where
  | providerGet (name : String)
  | providerList
  | fsCreate (b : Bucket) (key : String)
  | fsOpen (b : Bucket) (key : String)
deriving DecidableEq

/-- `ResponseCreated` (src/ent.go:148-151): body of a successful upload
response. `Duration` in nanoseconds as Go's `time.Duration`. -/
structure ResponseCreated where
  Duration : Int
  File : ResponseFile
deriving DecidableEq

/-- `respondCreated` (src/ent.go:153-171): writes `http.StatusCreated` and
encodes a `ResponseCreated` whose file carries the bucket, the key and the
raw digest; `d` is the elapsed time `time.Since(began)`. -/
def respondCreated (b : Bucket) (k : String) (h : Bytes) (d : Int) :
    Nat × ResponseCreated :=
  (statusCreated,
    { Duration := d, File := { Bucket := some b, Key := k, SHA1 := some h } })

/-- `ResponseBucketList` (src/ent.go:175-179): body of the bucket listing
response. -/
structure ResponseBucketList where
  Count : Nat
  Duration : Int
  Buckets : List Bucket
deriving DecidableEq

/-- `respondBucketList` (src/ent.go:181-189): `Count` is `len(bs)`,
`Buckets` is `bs` itself. -/
def respondBucketList (bs : List Bucket) (d : Int) : ResponseBucketList :=
  { Count := bs.length, Duration := d, Buckets := bs }

/-- Outcome of `handleCreate`: an error response (status code and error
body, written by `respondError`) or a created response (status code and
`ResponseCreated` body, written by `respondCreated`). -/
inductive CreateResp where
  | error (resp : Nat × ResponseError)
  | created (resp : Nat × ResponseCreated)
deriving DecidableEq

/-- Outcome of `handleGet`: an error response, or a call to
`http.ServeContent` with the given name, modification time and handle
(src/ent.go:125). -/
inductive GetResp where
  | error (resp : Nat × ResponseError)
  | serve (name : String) (modtime : Int) (f : File)
deriving DecidableEq

/-- Outcome of `handleBucketList`: an error response or the listing body
written by `respondBucketList`. -/
inductive ListResp where
  | error (resp : Nat × ResponseError)
  | listing (body : ResponseBucketList)
deriving DecidableEq

/-- `handleCreate` (src/ent.go:68-100): resolves the bucket through the
Provider, wraps the body in a `ReaderDelegator`, streams it through
`fs.Create`, asks the created handle for its digest, and responds; on any
failure it responds with `respondError` and returns. Produces the trace of
collaborator calls and the response; `dur` is `time.Since(began)` at
response time. -/
def handleCreate (p : Provider) (fs : FileSystem) (r : Request) (dur : Int) :
    List Event × CreateResp :=
  match p.Get r.bucket with
  | .error err => ([.providerGet r.bucket], .error (respondError r.Method r.URL err))
  | .ok b =>
    match fs.Create b r.key r.body with
    | .error err =>
      ([.providerGet r.bucket, .fsCreate b r.key], .error (respondError r.Method r.URL err))
    | .ok f =>
      match f.Hash with
      | .error err =>
        ([.providerGet r.bucket, .fsCreate b r.key], .error (respondError r.Method r.URL err))
      | .ok h =>
        ([.providerGet r.bucket, .fsCreate b r.key], .created (respondCreated b r.key h dur))

/-- `handleGet` (src/ent.go:102-127): resolves the bucket through the
Provider, opens the object, and serves it via
`http.ServeContent(rwd, r, key, time.Now(), f)` — the modification time
argument is `time.Now()` evaluated at serving time (`serveNow`), not a
property of `f`. -/
def handleGet (p : Provider) (fs : FileSystem) (r : Request) (serveNow : Int) :
    List Event × GetResp :=
  match p.Get r.bucket with
  | .error err => ([.providerGet r.bucket], .error (respondError r.Method r.URL err))
  | .ok b =>
    match fs.Open b r.key with
    | .error err =>
      ([.providerGet r.bucket, .fsOpen b r.key], .error (respondError r.Method r.URL err))
    | .ok f =>
      ([.providerGet r.bucket, .fsOpen b r.key], .serve r.key serveNow f)

/-- `handleBucketList` (src/ent.go:129-144): enumerates buckets through
the Provider and responds with `respondBucketList`; `dur` is
`time.Since(began)`. -/
def handleBucketList (p : Provider) (r : Request) (dur : Int) :
    List Event × ListResp :=
  match p.List () with
  | .error err => ([.providerList], .error (respondError r.Method r.URL err))
  | .ok bs => ([.providerList], .listing (respondBucketList bs dur))

/-! ## The JSON document of a created response -/

/-- The JSON document produced by `json.NewEncoder(w).Encode` for a
`ResponseCreated` (src/ent.go:163-170): the encoder serializes `Duration`
as a number and serializes the `File` field through
`ResponseFile.MarshalJSON`, i.e. as its wrapper with the digest in hex. -/
structure ResponseCreatedDoc where
  duration : Int
  file : responseFileWrapper
deriving DecidableEq

/-- Encoding of a `ResponseCreated` into its JSON document. -/
def encodeResponseCreated (rc : ResponseCreated) : ResponseCreatedDoc :=
  { duration := rc.Duration, file := rc.File.marshalJSON }

/-- The numeric values appearing in the JSON document of a created
response: only the duration. -/
def ResponseCreatedDoc.numberValues (d : ResponseCreatedDoc) : List Int :=
  [d.duration]

/-- The string values appearing in the JSON document of a created
response: the bucket name (when the bucket is present), the key, and the
hex digest. -/
def ResponseCreatedDoc.stringValues (d : ResponseCreatedDoc) : List String :=
  (match d.file.Bucket with
    | some b => [b.Name]
    | none => []) ++ [d.file.Key, d.file.SHA1]

/-- The document carries the natural number `n` when `n` occurs among its
numeric values or its decimal rendering occurs among its string values —
the ways a byte count could be present in the response body. -/
def ResponseCreatedDoc.carriesNat (d : ResponseCreatedDoc) (n : Nat) : Prop :=
  (n : Int) ∈ d.numberValues ∨ toString n ∈ d.stringValues

instance (d : ResponseCreatedDoc) (n : Nat) : Decidable (d.carriesNat n) := by
  unfold ResponseCreatedDoc.carriesNat
  infer_instance

/-- Modelled from the spec: the "hexadecimal text form" of a byte
sequence (§6), rendered independently of the source's `hextable` through
core Lean's `Nat.digitChar`: each byte contributes the digit of its high
nibble then the digit of its low nibble. -/
def specHexRender : Bytes → List Char
  | [] => []
  | b :: bs => Nat.digitChar (b.val / 16) :: Nat.digitChar (b.val % 16) :: specHexRender bs

/-! ## Concrete collaborators for witnesses

A one-bucket deployment used to evaluate the handlers on concrete
requests: bucket `media` holds a committed object `clip1.mp3`, and every
upload hashes to the two bytes `0xde 0xad`. -/

/-- The single configured bucket. -/
def demoBucket : Bucket := { Name := "media" }

/-- A provider resolving only `media`. -/
def demoProvider : Provider :=
  { Get := fun name => if name = "media" then .ok demoBucket else .error .bucketNotFound,
    List := fun _ => .ok [demoBucket] }

/-- The committed object's read handle, last modified at nanosecond 100. -/
def demoFile : File := { modTime := 100 }

/-- A file system whose every create succeeds with digest `0xde 0xad` and
which holds exactly the object `clip1.mp3` in `media`. -/
def demoFS : FileSystem :=
  { Create := fun _ _ _ => .ok { Hash := .ok [222, 173] },
    Open := fun b k =>
      if b = demoBucket ∧ k = "clip1.mp3" then .ok demoFile else .error .fileNotFound }

/-- A five-byte upload of `clip1.mp3` into `media`. -/
def reqCreate : Request :=
  { bucket := "media", key := "clip1.mp3", body := [1, 2, 3, 4, 5],
    Method := "POST", URL := "/media/clip1.mp3" }

/-- A download of `clip1.mp3` from `media`. -/
def reqGet : Request :=
  { bucket := "media", key := "clip1.mp3", body := [],
    Method := "GET", URL := "/media/clip1.mp3" }

/-- A download naming a bucket the provider does not know. -/
def reqNoBucket : Request :=
  { bucket := "nosuch", key := "clip1.mp3", body := [],
    Method := "GET", URL := "/nosuch/clip1.mp3" }

/-! ## Helper lemmas -/

/-- The source's digit table agrees with core Lean's digit rendering on
every nibble. -/
theorem hextable_getD_digitChar :
    ∀ n : Fin 16, hextable.getD n.val '0' = Nat.digitChar n.val := by decide

/-- Decoding inverts the digit table on every nibble. -/
theorem fromHexChar_hextable :
    ∀ n : Fin 16, fromHexChar (hextable.getD n.val '0') = some n.val := by decide

/-- `hex.Decode` inverts `hex.Encode` on byte lists. -/
theorem hexDecodeChars_hexEncodeBytes (bs : Bytes) :
    hexDecodeChars (hexEncodeBytes bs) = .ok bs := by
  induction bs with
  | nil => rfl
  | cons b bs ih =>
    have hlt := b.isLt
    have hhi : fromHexChar (hextable.getD (b.val / 16) '0') = some (b.val / 16) :=
      fromHexChar_hextable ⟨b.val / 16, by omega⟩
    have hlo : fromHexChar (hextable.getD (b.val % 16) '0') = some (b.val % 16) :=
      fromHexChar_hextable ⟨b.val % 16, by omega⟩
    simp only [hexEncodeBytes, hexDecodeChars, hhi, hlo, ih]
    congr 2
    apply Fin.ext
    show (b.val / 16 * 16 + b.val % 16) % 256 = b.val
    omega

/-- `hex.DecodeString` inverts `hex.EncodeToString`. -/
theorem hexDecodeString_hexEncodeToString (bs : Bytes) :
    hexDecodeString (hexEncodeToString bs) = .ok bs :=
  hexDecodeChars_hexEncodeBytes bs

/-- A match of `X+` where `X` is a character class is exactly a non-empty
list of characters of the class (forward direction, by induction on the
matching derivation). -/
theorem matches_plus_charClass_intro {p : Char → Bool} :
    ∀ {r : Regex} {l : List Char}, Regex.Matches r l →
      r = .plus (.charClass p) → l ≠ [] ∧ ∀ c ∈ l, p c = true := by
  intro r l h
  induction h with
  | charClass hc => intro he; exact absurd he (by intro he; cases he)
  | plusOne h ih =>
    intro he
    injection he with he'
    subst he'
    cases h with
    | charClass hc => exact ⟨by simp, by simpa using hc⟩
  | plusMore h₁ h₂ ih₁ ih₂ =>
    intro he
    injection he with he'
    subst he'
    cases h₁ with
    | charClass hc =>
      obtain ⟨-, hall⟩ := ih₂ rfl
      refine ⟨by simp, ?_⟩
      intro c hcl
      rcases List.mem_append.mp hcl with hcl | hcl
      · simp only [List.mem_singleton] at hcl
        exact hcl ▸ hc
      · exact hall c hcl

/-- A non-empty list of class characters is matched by `X+` (backward
direction, by induction on the list). -/
theorem matches_plus_charClass_of {p : Char → Bool} :
    ∀ l : List Char, l ≠ [] → (∀ c ∈ l, p c = true) →
      Regex.Matches (.plus (.charClass p)) l
  | [], hne, _ => absurd rfl hne
  | [c], _, hall => .plusOne (.charClass (hall c (by simp)))
  | c :: d :: rest, _, hall =>
    @Regex.Matches.plusMore (.charClass p) [c] (d :: rest)
      (.charClass (hall c (by simp)))
      (matches_plus_charClass_of (d :: rest) (by simp)
        (fun x hx => hall x (by simp [hx, List.mem_cons])))

/-! ## Claims -/

/-- C1. The status code written by `respondError` is 404 exactly when the
error is `ErrBucketNotFound` or `ErrFileNotFound`, and 500 for every other
error value. -/
theorem respondError_status (method url : String) (err : Err) :
    ((respondError method url err).1 = statusNotFound ↔
      err = .bucketNotFound ∨ err = .fileNotFound) ∧
    (err ≠ .bucketNotFound → err ≠ .fileNotFound →
      (respondError method url err).1 = statusInternalServerError) := by
  cases err <;>
    simp [respondError, respondErrorCode, statusNotFound, statusInternalServerError]

/-- C1 witness: evaluated at `ErrBucketNotFound` and at an unrelated error. -/
theorem respondError_status_witness :
    (respondError "POST" "/media/clip1.mp3" .bucketNotFound).1 = statusNotFound ∧
    (respondError "POST" "/media/clip1.mp3" (.other "disk on fire")).1 =
      statusInternalServerError :=
  ⟨(respondError_status "POST" "/media/clip1.mp3" .bucketNotFound).1.mpr (Or.inl rfl),
   (respondError_status "POST" "/media/clip1.mp3" (.other "disk on fire")).2
     (by decide) (by decide)⟩

/-- C4. The `key` capture of `fileRoute` matches a string exactly when it
is non-empty and every character lies in the class
`[a-zA-Z0-9\-_\.~\+\/]`, and that class coincides with the alphabet
`[a-zA-Z0-9-_.~+/]` named by the spec. -/
theorem fileRoute_key_alphabet (l : List Char) :
    (Regex.Matches fileRouteKeyRegex l ↔ l ≠ [] ∧ ∀ c ∈ l, isKeyChar c = true) ∧
    (∀ c : Char, isKeyChar c = specKeyAlphabet c) := by
  constructor
  · constructor
    · intro h
      exact matches_plus_charClass_intro h rfl
    · intro ⟨hne, hall⟩
      exact matches_plus_charClass_of l hne hall
  · intro c
    rfl

/-- C4 witness: the route pattern accepts the concrete key
`clip1.mp3` and rejects the empty key. -/
theorem fileRoute_key_alphabet_witness :
    Regex.Matches fileRouteKeyRegex
      ['c', 'l', 'i', 'p', '1', '.', 'm', 'p', '3'] ∧
    ¬ Regex.Matches fileRouteKeyRegex [] :=
  ⟨(fileRoute_key_alphabet _).1.mpr (by decide),
   fun h => (((fileRoute_key_alphabet []).1.mp h).1) rfl⟩

/-- C5. When the Provider's bucket lookup fails, both handlers respond
with the error and the trace holds no FileSystem call; and any FileSystem
call in a trace names exactly the bucket the Provider resolved and the
request's key. -/
theorem fs_only_after_provider (p : Provider) (fs : FileSystem) (r : Request)
    (dur serveNow : Int) :
    (∀ e : Err, p.Get r.bucket = .error e →
      handleCreate p fs r dur =
        ([.providerGet r.bucket], .error (respondError r.Method r.URL e)) ∧
      handleGet p fs r serveNow =
        ([.providerGet r.bucket], .error (respondError r.Method r.URL e))) ∧
    (∀ (b : Bucket) (k : String),
      Event.fsCreate b k ∈ (handleCreate p fs r dur).1 ∨
        Event.fsOpen b k ∈ (handleGet p fs r serveNow).1 →
      p.Get r.bucket = .ok b ∧ k = r.key) := by
  constructor
  · intro e he
    constructor <;> simp [handleCreate, handleGet, he]
  · intro b k hmem
    cases hg : p.Get r.bucket with
    | error e =>
      exfalso
      rcases hmem with hmem | hmem
      · cases hmem' : fs.Create b r.key r.body <;>
          simp [handleCreate, hg] at hmem
      · simp [handleGet, hg] at hmem
    | ok b' =>
      rcases hmem with hmem | hmem
      · cases hc : fs.Create b' r.key r.body with
        | error e₂ =>
          simp [handleCreate, hg, hc] at hmem
          exact ⟨by rw [hmem.1], hmem.2⟩
        | ok f =>
          cases hh : f.Hash with
          | error e₃ =>
            simp [handleCreate, hg, hc, hh] at hmem
            exact ⟨by rw [hmem.1], hmem.2⟩
          | ok h =>
            simp [handleCreate, hg, hc, hh] at hmem
            exact ⟨by rw [hmem.1], hmem.2⟩
      · cases ho : fs.Open b' r.key with
        | error e₂ =>
          simp [handleGet, hg, ho] at hmem
          exact ⟨by rw [hmem.1], hmem.2⟩
        | ok f =>
          simp [handleGet, hg, ho] at hmem
          exact ⟨by rw [hmem.1], hmem.2⟩

/-- C5 witness: the unknown bucket `nosuch` is answered by `respondError`
with no FileSystem call, and the successful upload's FileSystem call
names the bucket the Provider resolved. -/
theorem fs_only_after_provider_witness :
    handleGet demoProvider demoFS reqNoBucket 500 =
      ([.providerGet "nosuch"],
        .error (respondError "GET" "/nosuch/clip1.mp3" .bucketNotFound)) ∧
    demoProvider.Get "media" = .ok demoBucket :=
  ⟨((fs_only_after_provider demoProvider demoFS reqNoBucket 7 500).1
      .bucketNotFound rfl).2,
   ((fs_only_after_provider demoProvider demoFS reqCreate 7 500).2
      demoBucket "clip1.mp3" (Or.inl (by decide))).1⟩

/-- C7. When the Provider's enumeration succeeds with `bs`, the listing
response's `Buckets` field is exactly `bs` in order and its `Count` field
is the length of `bs`. -/
theorem handleBucketList_lists_provider (p : Provider) (r : Request) (dur : Int)
    (bs : List Bucket) (h : p.List () = .ok bs) :
    handleBucketList p r dur =
      ([.providerList],
        .listing { Count := bs.length, Duration := dur, Buckets := bs }) := by
  simp [handleBucketList, respondBucketList, h]

/-- C7 witness: evaluated on the one-bucket provider. -/
theorem handleBucketList_lists_provider_witness :
    demoProvider.List () = .ok [demoBucket] ∧
    handleBucketList demoProvider reqGet 7 =
      ([.providerList],
        .listing { Count := 1, Duration := 7, Buckets := [demoBucket] }) :=
  ⟨rfl, handleBucketList_lists_provider demoProvider reqGet 7 [demoBucket] rfl⟩

/-- The source's encoder agrees byte for byte with the spec-side
hexadecimal rendering. -/
theorem hexEncodeBytes_eq_specHexRender (bs : Bytes) :
    hexEncodeBytes bs = specHexRender bs := by
  induction bs with
  | nil => rfl
  | cons b bs ih =>
    have hlt := b.isLt
    simp only [hexEncodeBytes, specHexRender, ih, List.cons.injEq, and_true]
    exact ⟨hextable_getD_digitChar ⟨b.val / 16, by omega⟩,
      hextable_getD_digitChar ⟨b.val % 16, by omega⟩⟩

/-- C6. For a digest carried internally as the raw byte sequence `h`, the
JSON document produced by `MarshalJSON` carries exactly the hexadecimal
text form of `h` in its SHA1 field, the other fields unchanged. -/
theorem marshalJSON_hex_digest (r : ResponseFile) (h : Bytes)
    (hr : r.SHA1 = some h) :
    r.marshalJSON =
      { Bucket := r.Bucket, Key := r.Key, SHA1 := String.mk (specHexRender h) } := by
  simp [ResponseFile.marshalJSON, hr, hexEncodeToString, hexEncodeBytes_eq_specHexRender]

/-- C6 witness: the digest `0xde 0xad` is marshalled as the hex text
`dead`. -/
theorem marshalJSON_hex_digest_witness :
    ResponseFile.marshalJSON
      { Bucket := some demoBucket, Key := "clip1.mp3", SHA1 := some [222, 173] } =
      { Bucket := some demoBucket, Key := "clip1.mp3",
        SHA1 := String.mk (specHexRender [222, 173]) } ∧
    String.mk (specHexRender [222, 173]) = "dead" :=
  ⟨marshalJSON_hex_digest _ [222, 173] rfl, by decide⟩

/-- C2 counterexample: a successful five-byte upload whose response body
does not carry the byte count 5 anywhere — neither among its numeric
values nor as a decimal string — although the upload succeeded. -/
theorem respondCreated_no_byte_count :
    (handleCreate demoProvider demoFS reqCreate 7).2 =
      .created (statusCreated,
        { Duration := 7,
          File := { Bucket := some demoBucket, Key := "clip1.mp3",
                    SHA1 := some [222, 173] } }) ∧
    reqCreate.body.length = 5 ∧
    ¬ (encodeResponseCreated
        { Duration := 7,
          File := { Bucket := some demoBucket, Key := "clip1.mp3",
                    SHA1 := some [222, 173] } }).carriesNat 5 :=
  ⟨by decide, by decide, by decide⟩

/-- C2 amended: the response body of a successful upload contains the
computed content digest (in hex) but not the byte count — its values are
exactly the duration, the bucket name, the key and the hex digest. -/
theorem handleCreate_body_contents (p : Provider) (fs : FileSystem)
    (r : Request) (dur : Int) (b : Bucket) (f : CreatedFile) (h : Bytes)
    (hb : p.Get r.bucket = .ok b) (hc : fs.Create b r.key r.body = .ok f)
    (hh : f.Hash = .ok h) :
    (handleCreate p fs r dur).2 =
      .created (statusCreated,
        { Duration := dur,
          File := { Bucket := some b, Key := r.key, SHA1 := some h } }) ∧
    (encodeResponseCreated
        { Duration := dur,
          File := { Bucket := some b, Key := r.key, SHA1 := some h } }).file.SHA1 =
      hexEncodeToString h ∧
    (encodeResponseCreated
        { Duration := dur,
          File := { Bucket := some b, Key := r.key, SHA1 := some h } }).numberValues =
      [dur] ∧
    (encodeResponseCreated
        { Duration := dur,
          File := { Bucket := some b, Key := r.key, SHA1 := some h } }).stringValues =
      [b.Name, r.key, hexEncodeToString h] :=
  ⟨by simp [handleCreate, hb, hc, hh, respondCreated], rfl, rfl, rfl⟩

/-- C2 amended witness: evaluated on the five-byte demo upload. -/
theorem handleCreate_body_contents_witness :
    (handleCreate demoProvider demoFS reqCreate 7).2 =
      .created (statusCreated,
        { Duration := 7,
          File := { Bucket := some demoBucket, Key := "clip1.mp3",
                    SHA1 := some [222, 173] } }) ∧
    (encodeResponseCreated
        { Duration := 7,
          File := { Bucket := some demoBucket, Key := "clip1.mp3",
                    SHA1 := some [222, 173] } }).file.SHA1 =
      hexEncodeToString [222, 173] ∧
    (encodeResponseCreated
        { Duration := 7,
          File := { Bucket := some demoBucket, Key := "clip1.mp3",
                    SHA1 := some [222, 173] } }).numberValues = [7] ∧
    (encodeResponseCreated
        { Duration := 7,
          File := { Bucket := some demoBucket, Key := "clip1.mp3",
                    SHA1 := some [222, 173] } }).stringValues =
      [demoBucket.Name, "clip1.mp3", hexEncodeToString [222, 173]] :=
  handleCreate_body_contents demoProvider demoFS reqCreate 7 demoBucket
    { Hash := .ok [222, 173] } [222, 173] rfl rfl rfl

/-- C3. `handleGet` passes `time.Now()` — the clock at serving time — as
the modification time to `http.ServeContent`, not the timestamp of the
opened handle: opening the object committed at time 100 and serving at
time 500 serves with modification time 500. -/
theorem handleGet_modtime_is_request_time :
    demoFS.Open demoBucket "clip1.mp3" = .ok demoFile ∧
    demoFile.modTime = 100 ∧
    handleGet demoProvider demoFS reqGet 500 =
      ([.providerGet "media", .fsOpen demoBucket "clip1.mp3"],
        .serve "clip1.mp3" 500 demoFile) ∧
    (500 : Int) ≠ demoFile.modTime :=
  ⟨rfl, rfl, rfl, by decide⟩

/-- C8. Unmarshalling the JSON produced by marshalling a `ResponseFile`
with a non-nil digest yields that `ResponseFile` back, with a nil
returned error, for any prior receiver value. -/
theorem unmarshal_marshal_roundtrip (r₀ r : ResponseFile) (h : Bytes)
    (hr : r.SHA1 = some h) :
    ResponseFile.unmarshalJSON r₀ (.ok r.marshalJSON) = (r, none) := by
  obtain ⟨bk, k, sh⟩ := r
  simp only at hr
  subst hr
  simp [ResponseFile.marshalJSON, ResponseFile.unmarshalJSON,
    hexDecodeString_hexEncodeToString]

/-- C8 witness: round trip of a concrete file with digest `0xde 0xad`,
starting from an unrelated receiver. -/
theorem unmarshal_marshal_roundtrip_witness :
    ResponseFile.unmarshalJSON
      { Bucket := none, Key := "old", SHA1 := none }
      (.ok (ResponseFile.marshalJSON
        { Bucket := some demoBucket, Key := "clip1.mp3", SHA1 := some [222, 173] })) =
      ({ Bucket := some demoBucket, Key := "clip1.mp3", SHA1 := some [222, 173] }, none) :=
  unmarshal_marshal_roundtrip _ _ [222, 173] rfl

/-- Behaviour of a sequence of `Read` calls from an arbitrary starting
delegator: the `(count, error)` outputs are those of the underlying
reader run from the same state, the final underlying states agree, and
`BytesRead` grows by the sum of the returned counts. -/
theorem runReads_spec (u : Reader σ) :
    ∀ (caps : List Nat) (rd : ReaderDelegator σ),
      (runReads u rd caps).2 = (runReader u rd.state caps).2 ∧
      (runReads u rd caps).1.state = (runReader u rd.state caps).1 ∧
      (runReads u rd caps).1.BytesRead =
        rd.BytesRead + ((runReads u rd caps).2.map Prod.fst).sum := by
  intro caps
  induction caps with
  | nil => intro rd; simp [runReads, runReader]
  | cons cap caps ih =>
    intro rd
    rcases hu : u.read rd.state cap with ⟨s', n, err⟩
    have hRead : rd.Read u cap =
        ({ state := s', BytesRead := rd.BytesRead + n }, n, err) := by
      simp [ReaderDelegator.Read, hu]
    have h1 : runReads u rd (cap :: caps) =
        ((runReads u { state := s', BytesRead := rd.BytesRead + n } caps).1,
          (n, err) :: (runReads u { state := s', BytesRead := rd.BytesRead + n } caps).2) := by
      simp [runReads, hRead]
    have h2 : runReader u rd.state (cap :: caps) =
        ((runReader u s' caps).1, (n, err) :: (runReader u s' caps).2) := by
      simp [runReader, hu]
    obtain ⟨houts, hstate, hbytes⟩ := ih { state := s', BytesRead := rd.BytesRead + n }
    rw [h1, h2]
    refine ⟨?_, ?_, ?_⟩
    · simpa using houts
    · simpa using hstate
    · simp only [List.map_cons, List.sum_cons]
      simp only at hbytes
      omega

/-- C9. Each `Read` on a `ReaderDelegator` returns exactly the count and
error of the underlying reader's `Read`, and after any sequence of calls
starting from `NewReaderDelegator`, `BytesRead` equals the sum of the
counts returned so far. -/
theorem readerDelegator_counts (u : Reader σ) :
    (∀ (rd : ReaderDelegator σ) (cap : Nat),
      (rd.Read u cap).2 = (u.read rd.state cap).2) ∧
    (∀ (s : σ) (caps : List Nat),
      (runReads u (NewReaderDelegator s) caps).2 = (runReader u s caps).2 ∧
      (runReads u (NewReaderDelegator s) caps).1.BytesRead =
        ((runReads u (NewReaderDelegator s) caps).2.map Prod.fst).sum) := by
  constructor
  · intro rd cap
    rcases hu : u.read rd.state cap with ⟨s', n, err⟩
    simp [ReaderDelegator.Read, hu]
  · intro s caps
    obtain ⟨houts, -, hbytes⟩ := runReads_spec u caps (NewReaderDelegator s)
    exact ⟨houts, by simpa [NewReaderDelegator] using hbytes⟩

/-- C10. When `UnmarshalJSON` returns an error — a parse error or a
hex-decoding error — the receiver is left completely unchanged. -/
theorem unmarshalJSON_error_preserves (r : ResponseFile)
    (d : Except String responseFileWrapper) (e : String)
    (h : (r.unmarshalJSON d).2 = some e) :
    (r.unmarshalJSON d).1 = r := by
  cases d with
  | error e' => rfl
  | ok w =>
    cases hw : hexDecodeString w.SHA1 with
    | error e' => simp [ResponseFile.unmarshalJSON, hw]
    | ok bs => simp [ResponseFile.unmarshalJSON, hw] at h

/-- C10 witness: a wrapper whose SHA1 field `zz` is not valid hex makes
`UnmarshalJSON` fail and leaves the receiver untouched. -/
theorem unmarshalJSON_error_preserves_witness :
    (ResponseFile.unmarshalJSON
      { Bucket := some demoBucket, Key := "clip1.mp3", SHA1 := some [222, 173] }
      (.ok { Bucket := none, Key := "x", SHA1 := "zz" })).1 =
      { Bucket := some demoBucket, Key := "clip1.mp3", SHA1 := some [222, 173] } :=
  unmarshalJSON_error_preserves _ _ "encoding/hex: invalid byte" rfl

end Ent
